import Mathlib

/-!
Shallow embedding of the pricing / cart / order-lifecycle kernel of the
merchtrack mobile client, together with theorems settling the frozen claims
about it.  Pure TypeScript functions are translated into executable Lean
functions; JavaScript numbers are modelled as `Option ℚ` with `none`
standing for `NaN`, and absent (`undefined`/`null`) values as an outer
`Option`.
-/

namespace MerchTrack

/-- A JavaScript number: `none` is `NaN`, `some q` a finite value. -/
abbrev JsNum := Option ℚ

/-- The sparse `rolePricing : Record<string, number>` table, as an
association list from role label to a JS number. -/
abbrev RoleMap := List (String × JsNum)

/-- The `variant` field of `RolePricingInput` in `src/stores/cart.store.ts`:
`price` is `none` when the raw value is `undefined`/`null`, otherwise the
number obtained from the raw `number | string` (so `parseFloat` of a
non-numeric string is `some none`, i.e. `NaN`).  `rolePricing` is `none`
when the record itself is absent at runtime. -/
structure Variant where
  price : Option JsNum
  rolePricing : Option RoleMap
deriving Repr, DecidableEq

/-- The `RolePricingResult` interface: `price`, `appliedRole`,
`formattedPrice`, optional `originalPrice`, optional `isRange`. -/
structure RolePricingResult where
  price : JsNum
  appliedRole : String
  formattedPrice : String
  originalPrice : Option String
  isRange : Option Bool
deriving Repr, DecidableEq

/-- JS truthiness of a `string | null` value: `null`/`undefined` and the
empty string are falsy. -/
def strTruthy : Option String → Bool
  | none => false
  | some s => s != ""

/-- Two-digit zero padding of a value below 100. -/
def pad2 (n : ℕ) : String :=
  if n < 10 then "0" ++ toString n else toString n

/-- The magnitude of a rational in hundredths, rounded to the nearest with
ties up: `⌊100·|x| + 1/2⌋`, written on numerator and denominator so that it
evaluates by `Nat` arithmetic. -/
def cents (x : ℚ) : ℕ :=
  (200 * x.num.natAbs + x.den) / (2 * x.den)

/-- `x.toFixed(2)` on a finite JS number, in exact rational arithmetic: the
sign is rendered first, then the magnitude rounded to the nearest hundredth
with ties rounded up (ECMA `Number.prototype.toFixed`). -/
def toFixed2 (x : ℚ) : String :=
  let a : ℕ := cents x
  (if x < 0 then "-" else "") ++ toString (a / 100) ++ "." ++ pad2 (a % 100)

/-- The template `` `₱${v.toFixed(2)}` `` (with `NaN.toFixed(2) = "NaN"`). -/
def pesoFmt : JsNum → String
  | none => "₱NaN"
  | some q => "₱" ++ toFixed2 q

/-- `useRolePricing` from `src/stores/cart.store.ts`: resolves a variant
price for a buyer from role, college and the product owner's college. -/
def useRolePricing (variant : Option Variant)
    (customerRole customerCollege productPostedByCollege : Option String) :
    RolePricingResult :=
  match variant with
  | none =>
    { price := some 0, appliedRole := "OTHERS", formattedPrice := "₱0.00",
      originalPrice := some "₱0.00", isRange := none }
  | some v =>
    match v.price with
    | none =>
      { price := some 0, appliedRole := "OTHERS", formattedPrice := "₱0.00",
        originalPrice := some "₱0.00", isRange := none }
    | some basePrice =>
      let validBasePrice : ℚ := basePrice.getD 0
      match customerRole, customerCollege, productPostedByCollege with
      | some r, some cc, some pc =>
        if r == "" || cc == "" || pc == "" then
          { price := some validBasePrice, appliedRole := "OTHERS",
            formattedPrice := "₱" ++ toFixed2 validBasePrice,
            originalPrice := some ("₱" ++ toFixed2 validBasePrice),
            isRange := none }
        else
          let rolePricing : RoleMap := v.rolePricing.getD []
          let pair : JsNum × String :=
            if cc == pc then
              match rolePricing.lookup r with
              | some p => (p, r)
              | none => (some validBasePrice, "OTHERS")
            else
              ((rolePricing.lookup "OTHERS").getD (some validBasePrice), "OTHERS")
          let finalPrice : ℚ := pair.1.getD validBasePrice
          { price := some finalPrice, appliedRole := pair.2,
            formattedPrice := "₱" ++ toFixed2 finalPrice,
            originalPrice :=
              if finalPrice ≠ validBasePrice then
                some ("₱" ++ toFixed2 validBasePrice)
              else none,
            isRange := none }
      | _, _, _ =>
        { price := some validBasePrice, appliedRole := "OTHERS",
          formattedPrice := "₱" ++ toFixed2 validBasePrice,
          originalPrice := some ("₱" ++ toFixed2 validBasePrice),
          isRange := none }

/-- A variant as fed to the product-level aggregator: `price` is
`Number(variant.price)` (a JS number, possibly `NaN`), and `rolePricing`
is `variant.rolePricing || {}` (always a record). -/
structure AggVariant where
  price : JsNum
  rolePricing : RoleMap
deriving Repr, DecidableEq

/-- The `variant` object that `getPricing` passes to `useRolePricing`. -/
def toVariant (v : AggVariant) : Variant :=
  { price := some v.price, rolePricing := some v.rolePricing }

/-- `Math.min` on two JS numbers (`NaN` absorbs). -/
def jsMin2 : JsNum → JsNum → JsNum
  | some a, some b => some (min a b)
  | _, _ => none

/-- `Math.max` on two JS numbers (`NaN` absorbs). -/
def jsMax2 : JsNum → JsNum → JsNum
  | some a, some b => some (max a b)
  | _, _ => none

/-- Strict equality `===` on two JS numbers (`NaN === NaN` is false). -/
def jsEq : JsNum → JsNum → Bool
  | some a, some b => a == b
  | _, _ => false

/-- The `product.variants.length > 0` branch of `getPricing` in
`src/app/(tabs)/products.tsx`, with the non-empty variant list given as
head `v` and tail `vs`: resolves each variant, takes `Math.min`/`Math.max`
of the resolved prices, keeps the common applied role when all agree, and
returns a single price or a `"low - high"` range. -/
def getPricing (v : AggVariant) (vs : List AggVariant)
    (customerRole customerCollege productPostedByCollege : Option String) :
    RolePricingResult :=
  let p0 := useRolePricing (some (toVariant v))
    customerRole customerCollege productPostedByCollege
  let prest := vs.map fun x => useRolePricing (some (toVariant x))
    customerRole customerCollege productPostedByCollege
  let lowestPrice := (prest.map RolePricingResult.price).foldl jsMin2 p0.price
  let highestPrice := (prest.map RolePricingResult.price).foldl jsMax2 p0.price
  let allSameRole := prest.all fun p => p.appliedRole == p0.appliedRole
  let commonAppliedRole := if allSameRole then p0.appliedRole else "OTHERS"
  if jsEq lowestPrice highestPrice then
    { price := lowestPrice, appliedRole := commonAppliedRole,
      formattedPrice := pesoFmt lowestPrice,
      originalPrice := none, isRange := none }
  else
    { price := lowestPrice, appliedRole := commonAppliedRole,
      formattedPrice := pesoFmt lowestPrice ++ " - " ++ pesoFmt highestPrice,
      originalPrice := none, isRange := some true }

/-- Walk the digits of a number least-significant first, inserting a comma
after every completed group of three; `k` counts the digits already placed
in the current group. -/
def commaRev : List Char → ℕ → List Char
  | [], _ => []
  | d :: rest, k =>
    if k = 3 then ',' :: d :: commaRev rest 1
    else d :: commaRev rest (k + 1)

/-- Decimal rendering of a natural number with comma digit grouping, as
`Intl.NumberFormat` produces for the integer part. -/
def withCommas (n : ℕ) : String :=
  String.mk ((commaRev (toString n).data.reverse 0).reverse)

/-- `formatCurrency` from `src/app/(tabs)/index.tsx`:
`Intl.NumberFormat` for `en-PH` / PHP with exactly two fraction digits
(grouped integer part, magnitude rounded half away from zero). -/
def formatCurrency : JsNum → String
  | none => "₱NaN"
  | some q =>
    let a : ℕ := cents q
    (if q < 0 then "-" else "") ++ "₱" ++ withCommas (a / 100) ++ "." ++ pad2 (a % 100)

/-- The `product.variants.length > 0` branch of `getPricing` in
`src/app/(tabs)/index.tsx`: identical to the products-screen version except
that prices are rendered through `formatCurrency`. -/
def getPricingHome (v : AggVariant) (vs : List AggVariant)
    (customerRole customerCollege productPostedByCollege : Option String) :
    RolePricingResult :=
  let p0 := useRolePricing (some (toVariant v))
    customerRole customerCollege productPostedByCollege
  let prest := vs.map fun x => useRolePricing (some (toVariant x))
    customerRole customerCollege productPostedByCollege
  let lowestPrice := (prest.map RolePricingResult.price).foldl jsMin2 p0.price
  let highestPrice := (prest.map RolePricingResult.price).foldl jsMax2 p0.price
  let allSameRole := prest.all fun p => p.appliedRole == p0.appliedRole
  let commonAppliedRole := if allSameRole then p0.appliedRole else "OTHERS"
  if jsEq lowestPrice highestPrice then
    { price := lowestPrice, appliedRole := commonAppliedRole,
      formattedPrice := formatCurrency lowestPrice,
      originalPrice := none, isRange := none }
  else
    { price := lowestPrice, appliedRole := commonAppliedRole,
      formattedPrice := formatCurrency lowestPrice ++ " - " ++ formatCurrency highestPrice,
      originalPrice := none, isRange := some true }

/-- A cart line (`CartItem` in `src/stores/cart.store.ts`). -/
structure CartItem where
  id : String
  productId : String
  variantId : Option String
  name : String
  price : ℚ
  quantity : ℚ
  imageUrl : Option String
  notes : Option String
  variantName : Option String
deriving Repr, DecidableEq

/-- The argument of `addItem` (`Omit<CartItem, 'id'>`). -/
structure NewCartItem where
  productId : String
  variantId : Option String
  name : String
  price : ℚ
  quantity : ℚ
  imageUrl : Option String
  notes : Option String
  variantName : Option String
deriving Repr, DecidableEq

/-- The `findIndex` predicate of `addItem`: same `productId` and same
`variantId` (strict equality, so `undefined` only matches `undefined`). -/
def keyMatch (n : NewCartItem) (it : CartItem) : Bool :=
  it.productId == n.productId && it.variantId == n.variantId

/-- Add `q` to the quantity of the first line satisfying `p`, or `none`
when no line matches: the `findIndex`-and-mutate-in-place loop of
`addItem`, written structurally. -/
def bumpFirst (p : CartItem → Bool) (q : ℚ) : List CartItem → Option (List CartItem)
  | [] => none
  | it :: rest =>
    if p it then some ({ it with quantity := it.quantity + q } :: rest)
    else (bumpFirst p q rest).map (it :: ·)

/-- The fresh id `` `${productId}-${variantId || 'default'}-${Date.now()}` ``;
the `Date.now()` timestamp is passed in as `now`. -/
def freshId (n : NewCartItem) (now : String) : String :=
  n.productId ++ "-" ++
    (match n.variantId with
      | some v => if v == "" then "default" else v
      | none => "default") ++ "-" ++ now

/-- `addItem` from the zustand cart store: bump the quantity of an existing
line with the same `(productId, variantId)` pair, or append a new line. -/
def addItem (items : List CartItem) (n : NewCartItem) (now : String) : List CartItem :=
  match bumpFirst (keyMatch n) n.quantity items with
  | some updated => updated
  | none =>
    items ++ [{ id := freshId n now, productId := n.productId,
                variantId := n.variantId, name := n.name, price := n.price,
                quantity := n.quantity, imageUrl := n.imageUrl,
                notes := n.notes, variantName := n.variantName }]

/-- `removeItem`: keep the lines whose id differs. -/
def removeItem (items : List CartItem) (id : String) : List CartItem :=
  items.filter fun it => it.id != id

/-- `updateQuantity`: set the quantity of the line with the given id to
`Math.max(1, quantity)`. -/
def updateQuantity (items : List CartItem) (id : String) (q : ℚ) : List CartItem :=
  items.map fun it => if it.id == id then { it with quantity := max 1 q } else it

/-- `updateNotes`: set the notes of the line with the given id. -/
def updateNotes (items : List CartItem) (id : String) (notes : String) : List CartItem :=
  items.map fun it => if it.id == id then { it with notes := some notes } else it

/-- `clearCart`. -/
def clearCart (_items : List CartItem) : List CartItem := []

/-- `getTotalPrice`: `reduce((total, item) => total + item.price * item.quantity, 0)`. -/
def getTotalPrice (items : List CartItem) : ℚ :=
  items.foldl (fun total it => total + it.price * it.quantity) 0

/-- `getTotalItems`: `reduce((total, item) => total + item.quantity, 0)`. -/
def getTotalItems (items : List CartItem) : ℚ :=
  items.foldl (fun total it => total + it.quantity) 0

/-- One call into the cart store. -/
inductive CartOp
  | add (n : NewCartItem) (now : String)
  | remove (id : String)
  | setQuantity (id : String) (q : ℚ)
  | setNotes (id : String) (notes : String)
  | clear
deriving Repr

/-- Apply one store call to the current `items` state. -/
def applyOp (items : List CartItem) : CartOp → List CartItem
  | .add n now => addItem items n now
  | .remove id => removeItem items id
  | .setQuantity id q => updateQuantity items id q
  | .setNotes id notes => updateNotes items id notes
  | .clear => clearCart items

/-- Run a sequence of store calls starting from the empty cart. -/
def runOps (ops : List CartOp) : List CartItem :=
  ops.foldl applyOp []

/-- The `(productId, variantId)` key of a cart line. -/
def itemKey (it : CartItem) : String × Option String :=
  (it.productId, it.variantId)

/-- `OrderStatus` from `src/prisma/schema/order.prisma`. -/
inductive OrderStatus
  | PENDING | PROCESSING | READY | DELIVERED | CANCELLED
deriving Repr, DecidableEq, Fintype

/-- `CancellationReason` from `src/prisma/schema/order.prisma`. -/
inductive CancellationReason
  | OUT_OF_STOCK | CUSTOMER_REQUEST | PAYMENT_FAILED | OTHERS
deriving Repr, DecidableEq, Fintype

/-- `OrderPaymentStatus` from `src/prisma/schema/order.prisma`. -/
inductive OrderPaymentStatus
  | PENDING | DOWNPAYMENT | PAID | REFUNDED
deriving Repr, DecidableEq, Fintype

/-- Modelled from the spec: the order-status adjacency table of the
lifecycle state machine (§4.3).  The repository only declares the
`OrderStatus` enum in `src/prisma/schema/order.prisma`; the transition
validation itself is not part of `src/`. -/
def allowedTransition : OrderStatus → OrderStatus → Bool
  | .PENDING, .PROCESSING => true
  | .PROCESSING, .READY => true
  | .READY, .DELIVERED => true
  | .PENDING, .CANCELLED => true
  | .PROCESSING, .CANCELLED => true
  | .READY, .CANCELLED => true
  | _, _ => false

/-- The slice of an order header that the lifecycle machine touches. -/
structure OrderRec where
  status : OrderStatus
  paymentStatus : OrderPaymentStatus
  cancellationReason : Option CancellationReason
deriving Repr, DecidableEq

/-- Typed rejection of a lifecycle transition request. -/
inductive TransitionError
  | illegalTransition
  | paymentIncomplete
  | missingCancellationReason
deriving Repr, DecidableEq

/-- Modelled from the spec:
`requestTransition(order, targetStatus, cancellationReason?)` (§4.3, §6,
§7) — the target must appear in the adjacency table, DELIVERED requires
`paymentStatus == PAID`, CANCELLED requires a cancellation reason; on
success the status (and, when cancelling, the reason) is updated as one
unit, and on failure the order is left unmodified.  This machinery is not
part of `src/`. -/
def requestTransition (o : OrderRec) (target : OrderStatus)
    (reason : Option CancellationReason) : Except TransitionError OrderRec :=
  if allowedTransition o.status target = false then
    .error .illegalTransition
  else if target = .DELIVERED ∧ o.paymentStatus ≠ .PAID then
    .error .paymentIncomplete
  else if target = .CANCELLED ∧ reason = none then
    .error .missingCancellationReason
  else
    .ok { o with status := target,
                 cancellationReason :=
                   if target = .CANCELLED then reason else o.cancellationReason }

/-- Apply one transition request, keeping the order unchanged when the
request is rejected. -/
def applyRequest (o : OrderRec)
    (req : OrderStatus × Option CancellationReason) : OrderRec :=
  match requestTransition o req.1 req.2 with
  | .ok updated => updated
  | .error _ => o

/-- Run a sequence of transition requests against an order. -/
def runRequests (o : OrderRec)
    (reqs : List (OrderStatus × Option CancellationReason)) : OrderRec :=
  reqs.foldl applyRequest o

/-- An order line item as persisted (`OrderItem` price/quantity slice). -/
structure OrderItemRec where
  price : ℚ
  quantity : ℚ
deriving Repr, DecidableEq

/-- Σ `item.price * item.quantity` over the line items — the same fold as
`getTotalPrice` in `src/stores/cart.store.ts`. -/
def lineItemsTotal (items : List OrderItemRec) : ℚ :=
  items.foldl (fun total it => total + it.price * it.quantity) 0

/-- Modelled from the spec: `Order.totalAmount` =
Σ(`OrderItem.price` × `OrderItem.quantity`) − `Order.discountAmount`,
clamped to ≥ 0 (§3, invariant 2).  The checkout path that persists an
order header is not part of `src/`. -/
def computeTotalAmount (items : List OrderItemRec) (discountAmount : ℚ) : ℚ :=
  max 0 (lineItemsTotal items - discountAmount)

/-- The slice of a persisted order header relevant to the total invariant. -/
structure PersistedOrder where
  orderItems : List OrderItemRec
  discountAmount : ℚ
  totalAmount : ℚ
deriving Repr, DecidableEq

/-- Modelled from the spec: order creation at checkout stores the line
items and the header total computed from them (§2 Order Aggregate, §6). -/
def mkOrder (items : List OrderItemRec) (discountAmount : ℚ) : PersistedOrder :=
  { orderItems := items, discountAmount := discountAmount,
    totalAmount := computeTotalAmount items discountAmount }

/-- The price/quantity snapshot an order line takes from a cart line. -/
def snapshot (it : CartItem) : OrderItemRec :=
  { price := it.price, quantity := it.quantity }

/-! ### Branch characterizations of `useRolePricing` -/

/-- The early return for a missing variant object. -/
lemma useRolePricing_no_variant (r c pc : Option String) :
    useRolePricing none r c pc =
      { price := some 0, appliedRole := "OTHERS", formattedPrice := "₱0.00",
        originalPrice := some "₱0.00", isRange := none } := rfl

/-- The early return for an `undefined`/`null` price. -/
lemma useRolePricing_absent_price (v : Variant) (r c pc : Option String)
    (hp : v.price = none) :
    useRolePricing (some v) r c pc =
      { price := some 0, appliedRole := "OTHERS", formattedPrice := "₱0.00",
        originalPrice := some "₱0.00", isRange := none } := by
  simp only [useRolePricing, hp]

/-- The early return when the customer role, the customer college or the
product college is falsy. -/
lemma useRolePricing_no_ctx (v : Variant) (bp : JsNum) (r c pc : Option String)
    (hp : v.price = some bp)
    (h : strTruthy r = false ∨ strTruthy c = false ∨ strTruthy pc = false) :
    useRolePricing (some v) r c pc =
      { price := some (bp.getD 0), appliedRole := "OTHERS",
        formattedPrice := "₱" ++ toFixed2 (bp.getD 0),
        originalPrice := some ("₱" ++ toFixed2 (bp.getD 0)),
        isRange := none } := by
  rcases r with _ | r <;> rcases c with _ | c <;> rcases pc with _ | pc
  all_goals
    simp only [useRolePricing, hp, strTruthy, bne_iff_ne, ne_eq,
      Bool.not_eq_false, decide_eq_false_iff_not, not_not] at h ⊢
  all_goals rcases h with h | h | h
  all_goals simp_all

/-- The same-college branch when `rolePricing[customerRole]` is present. -/
lemma useRolePricing_same_hit (v : Variant) (bp pp : JsNum) (r c : String)
    (hp : v.price = some bp) (hr : r ≠ "") (hc : c ≠ "")
    (hl : (v.rolePricing.getD []).lookup r = some pp) :
    useRolePricing (some v) (some r) (some c) (some c) =
      { price := some (pp.getD (bp.getD 0)), appliedRole := r,
        formattedPrice := "₱" ++ toFixed2 (pp.getD (bp.getD 0)),
        originalPrice :=
          if pp.getD (bp.getD 0) ≠ bp.getD 0
          then some ("₱" ++ toFixed2 (bp.getD 0)) else none,
        isRange := none } := by
  simp [useRolePricing, hp, hr, hc, hl]

/-- The same-college branch when `rolePricing[customerRole]` is absent:
the base price is kept and the role label is not upgraded. -/
lemma useRolePricing_same_miss (v : Variant) (bp : JsNum) (r c : String)
    (hp : v.price = some bp) (hr : r ≠ "") (hc : c ≠ "")
    (hl : (v.rolePricing.getD []).lookup r = none) :
    useRolePricing (some v) (some r) (some c) (some c) =
      { price := some (bp.getD 0), appliedRole := "OTHERS",
        formattedPrice := "₱" ++ toFixed2 (bp.getD 0),
        originalPrice := none, isRange := none } := by
  simp [useRolePricing, hp, hr, hc, hl]

/-- The different-college branch: `rolePricing["OTHERS"] ?? basePrice`,
with a final `NaN` guard reverting to the base price. -/
lemma useRolePricing_diff (v : Variant) (bp : JsNum) (r c pc : String)
    (hp : v.price = some bp) (hr : r ≠ "") (hc : c ≠ "") (hpc : pc ≠ "")
    (hne : c ≠ pc) :
    useRolePricing (some v) (some r) (some c) (some pc) =
      { price := some ((((v.rolePricing.getD []).lookup "OTHERS").getD
          (some (bp.getD 0))).getD (bp.getD 0)),
        appliedRole := "OTHERS",
        formattedPrice := "₱" ++ toFixed2 ((((v.rolePricing.getD []).lookup
          "OTHERS").getD (some (bp.getD 0))).getD (bp.getD 0)),
        originalPrice :=
          if (((v.rolePricing.getD []).lookup "OTHERS").getD
              (some (bp.getD 0))).getD (bp.getD 0) ≠ bp.getD 0
          then some ("₱" ++ toFixed2 (bp.getD 0)) else none,
        isRange := none } := by
  simp [useRolePricing, hp, hr, hc, hpc, hne]

/-- The resolver always produces a finite (non-`NaN`) price. -/
lemma useRolePricing_price_isSome (var : Option Variant) (r c pc : Option String) :
    ∃ q : ℚ, (useRolePricing var r c pc).price = some q := by
  unfold useRolePricing
  repeat' split
  all_goals exact ⟨_, rfl⟩

/-- The resolver never sets the range flag. -/
lemma useRolePricing_isRange_none (var : Option Variant) (r c pc : Option String) :
    (useRolePricing var r c pc).isRange = none := by
  unfold useRolePricing
  repeat' split
  all_goals rfl

/-- The resolver's formatted string is always the peso rendering of its
resolved price. -/
lemma useRolePricing_formatted (var : Option Variant) (r c pc : Option String) :
    (useRolePricing var r c pc).formattedPrice =
      pesoFmt (useRolePricing var r c pc).price := by
  unfold useRolePricing
  repeat' split
  all_goals simp [pesoFmt]
  all_goals decide

/-! ### Claims C1 to C5: the price resolver -/

/-- Claim C1 — with a valid numeric base price, all of role, customer
college and product college present, and matching colleges: a numeric
`rolePricing[actorRole]` entry becomes the unit price with
`appliedRole = actorRole`; an absent entry keeps the base price and leaves
`appliedRole` at `"OTHERS"`. -/
theorem c1_same_college_pricing (v : Variant) (r c : String) (q : ℚ)
    (hp : v.price = some (some q)) (hr : r ≠ "") (hc : c ≠ "") :
    ((v.rolePricing.getD []).lookup r = none →
      (useRolePricing (some v) (some r) (some c) (some c)).price = some q ∧
      (useRolePricing (some v) (some r) (some c) (some c)).appliedRole = "OTHERS") ∧
    ∀ p : ℚ, (v.rolePricing.getD []).lookup r = some (some p) →
      (useRolePricing (some v) (some r) (some c) (some c)).price = some p ∧
      (useRolePricing (some v) (some r) (some c) (some c)).appliedRole = r := by
  constructor
  · intro hl
    rw [useRolePricing_same_miss v (some q) r c hp hr hc hl]
    exact ⟨rfl, rfl⟩
  · intro p hl
    rw [useRolePricing_same_hit v (some q) (some p) r c hp hr hc hl]
    exact ⟨rfl, rfl⟩

/-- Witness for C1: base 500, `STUDENT ↦ 400`, role STUDENT, same college. -/
theorem c1_same_college_pricing_witness :
    (useRolePricing (some ⟨some (some 500), some [("STUDENT", some 400)]⟩)
      (some "STUDENT") (some "ENG") (some "ENG")).price = some 400 ∧
    (useRolePricing (some ⟨some (some 500), some [("STUDENT", some 400)]⟩)
      (some "STUDENT") (some "ENG") (some "ENG")).appliedRole = "STUDENT" :=
  (c1_same_college_pricing ⟨some (some 500), some [("STUDENT", some 400)]⟩
    "STUDENT" "ENG" 500 rfl (by decide) (by decide)).2 400 (by decide)

/-- Claim C2 — with a valid numeric base price, all inputs present and
colleges differing: `appliedRole` is `"OTHERS"` and the unit price is the
numeric `rolePricing["OTHERS"]` entry when present, otherwise the base
price. -/
theorem c2_diff_college_pricing (v : Variant) (r c pc : String) (q : ℚ)
    (hp : v.price = some (some q)) (hr : r ≠ "") (hc : c ≠ "") (hpc : pc ≠ "")
    (hne : c ≠ pc) :
    (useRolePricing (some v) (some r) (some c) (some pc)).appliedRole = "OTHERS" ∧
    ((v.rolePricing.getD []).lookup "OTHERS" = none →
      (useRolePricing (some v) (some r) (some c) (some pc)).price = some q) ∧
    ∀ p : ℚ, (v.rolePricing.getD []).lookup "OTHERS" = some (some p) →
      (useRolePricing (some v) (some r) (some c) (some pc)).price = some p := by
  rw [useRolePricing_diff v (some q) r c pc hp hr hc hpc hne]
  refine ⟨rfl, ?_, ?_⟩
  · intro hl; simp [hl]
  · intro p hl; simp [hl]

/-- Witness for C2: base 500, `OTHERS ↦ 450`, role STUDENT, colleges BUS
and ENG. -/
theorem c2_diff_college_pricing_witness :
    (useRolePricing
       (some ⟨some (some 500), some [("STUDENT", some 400), ("OTHERS", some 450)]⟩)
       (some "STUDENT") (some "BUS") (some "ENG")).appliedRole = "OTHERS" ∧
    (useRolePricing
       (some ⟨some (some 500), some [("STUDENT", some 400), ("OTHERS", some 450)]⟩)
       (some "STUDENT") (some "BUS") (some "ENG")).price = some 450 :=
  ⟨(c2_diff_college_pricing
      ⟨some (some 500), some [("STUDENT", some 400), ("OTHERS", some 450)]⟩
      "STUDENT" "BUS" "ENG" 500 rfl (by decide) (by decide) (by decide) (by decide)).1,
   (c2_diff_college_pricing
      ⟨some (some 500), some [("STUDENT", some 400), ("OTHERS", some 450)]⟩
      "STUDENT" "BUS" "ENG" 500 rfl (by decide) (by decide) (by decide) (by decide)).2.2
      450 (by decide)⟩

/-- Counterexample to claim C3 — a negative base price (not a valid
non-negative number) is NOT replaced by 0: the resolver returns it
unchanged. -/
theorem c3_counterexample :
    (useRolePricing (some ⟨some (some (-5)), some []⟩) none none none).price ≠
      some 0 ∧
    (useRolePricing (some ⟨some (some (-5)), some []⟩) none none none).price =
      some (-5) := by
  decide

/-- Claim C3 as amended — the immediate `0`/`"OTHERS"` return happens
exactly when the variant or its price is absent (`undefined`/`null`), and
it carries `originalPrice = "₱0.00"` (the result has no fallback flag); a
`NaN` base price is coerced to 0 but the role-override lookup still
proceeds and can produce a nonzero price; any other base price — negative
included — passes through unchanged when no override applies; no input
throws (the resolver is a total function). -/
theorem c3_amended (cRole cCollege pCollege : Option String) :
    (useRolePricing none cRole cCollege pCollege =
      { price := some 0, appliedRole := "OTHERS", formattedPrice := "₱0.00",
        originalPrice := some "₱0.00", isRange := none }) ∧
    (∀ v : Variant, v.price = none →
      useRolePricing (some v) cRole cCollege pCollege =
        { price := some 0, appliedRole := "OTHERS", formattedPrice := "₱0.00",
          originalPrice := some "₱0.00", isRange := none }) ∧
    (∀ (v : Variant) (q : ℚ), v.price = some (some q) →
      strTruthy cRole = false →
      (useRolePricing (some v) cRole cCollege pCollege).price = some q) ∧
    (∀ (v : Variant) (r c : String) (p : ℚ), v.price = some none →
      r ≠ "" → c ≠ "" → (v.rolePricing.getD []).lookup r = some (some p) →
      (useRolePricing (some v) (some r) (some c) (some c)).price = some p) := by
  refine ⟨useRolePricing_no_variant cRole cCollege pCollege, ?_, ?_, ?_⟩
  · intro v hp
    exact useRolePricing_absent_price v cRole cCollege pCollege hp
  · intro v q hp hr
    rw [useRolePricing_no_ctx v (some q) cRole cCollege pCollege hp (Or.inl hr)]
    rfl
  · intro v r c p hp hr hc hl
    rw [useRolePricing_same_hit v none (some p) r c hp hr hc hl]
    rfl

/-- Witness for the amended C3: an absent price yields the fallback record,
and a negative price −5 with no buyer context is returned unchanged. -/
theorem c3_amended_witness :
    useRolePricing (some ⟨none, none⟩) (some "STUDENT") (some "ENG") (some "ENG") =
      { price := some 0, appliedRole := "OTHERS", formattedPrice := "₱0.00",
        originalPrice := some "₱0.00", isRange := none } ∧
    (useRolePricing (some ⟨some (some (-7)), none⟩) none (some "ENG") (some "ENG")).price =
      some (-7) :=
  ⟨(c3_amended (some "STUDENT") (some "ENG") (some "ENG")).2.1 ⟨none, none⟩ rfl,
   (c3_amended none (some "ENG") (some "ENG")).2.2.1 ⟨some (some (-7)), none⟩
     (-7) rfl rfl⟩

/-- A key looked up successfully in an association list is paired with the
found value somewhere in the list. -/
lemma lookup_mem (l : RoleMap) (k : String) (val : JsNum)
    (h : l.lookup k = some val) : (k, val) ∈ l := by
  induction l with
  | nil => simp [List.lookup] at h
  | cons e es ih =>
    rw [List.lookup] at h
    by_cases hk : (k == e.1) = true
    · rw [hk] at h
      obtain rfl : e.2 = val := by injection h
      obtain rfl : k = e.1 := eq_of_beq hk
      exact List.mem_cons_self _ _
    · rw [Bool.not_eq_true] at hk
      rw [hk] at h
      exact List.mem_cons_of_mem _ (ih h)

/-- A role-price entry whose value, when numeric, is non-negative. -/
def nonnegEntry : String × JsNum → Bool
  | (_, none) => true
  | (_, some p) => decide (0 ≤ p)

/-- Truthiness of an optional string means a present, non-empty string. -/
lemma strTruthy_iff (o : Option String) :
    strTruthy o = true ↔ ∃ s, o = some s ∧ s ≠ "" := by
  cases o <;> simp [strTruthy]

/-- Counterexample to claim C4 — with a non-negative base price but a
negative `OTHERS` override, the resolved unit price is negative. -/
theorem c4_counterexample :
    (useRolePricing (some ⟨some (some 100), some [("OTHERS", some (-50))]⟩)
      (some "STUDENT") (some "A") (some "B")).price = some (-50) ∧
    ((-50 : ℚ) < 0) := by
  decide

/-- Claim C4 as amended — when the base price is a non-negative number and
every numeric entry of the role-price map is non-negative, the resolved
unit price is a non-negative number, for every buyer context. -/
theorem c4_nonneg_amended (v : Variant) (q : ℚ) (r c pc : Option String)
    (hp : v.price = some (some q)) (hq : 0 ≤ q)
    (hm : (v.rolePricing.getD []).all nonnegEntry = true) :
    ∃ u : ℚ, (useRolePricing (some v) r c pc).price = some u ∧ 0 ≤ u := by
  have entry_nonneg : ∀ key : String, ∀ p : ℚ,
      (v.rolePricing.getD []).lookup key = some (some p) → 0 ≤ p := by
    intro key p hl
    have hmem := lookup_mem _ _ _ hl
    have := List.all_eq_true.mp hm _ hmem
    simpa [nonnegEntry] using this
  by_cases hctx : strTruthy r = true ∧ strTruthy c = true ∧ strTruthy pc = true
  · obtain ⟨hr, hc, hpc⟩ := hctx
    obtain ⟨rs, rfl, hrs⟩ := (strTruthy_iff r).mp hr
    obtain ⟨cs, rfl, hcs⟩ := (strTruthy_iff c).mp hc
    obtain ⟨ps, rfl, hps⟩ := (strTruthy_iff pc).mp hpc
    by_cases hcp : cs = ps
    · subst hcp
      cases hl : (v.rolePricing.getD []).lookup rs with
      | none =>
        rw [useRolePricing_same_miss v (some q) rs cs hp hrs hcs hl]
        exact ⟨q, rfl, hq⟩
      | some pp =>
        rw [useRolePricing_same_hit v (some q) pp rs cs hp hrs hcs hl]
        cases pp with
        | none => exact ⟨q, rfl, hq⟩
        | some pv => exact ⟨pv, rfl, entry_nonneg rs pv hl⟩
    · rw [useRolePricing_diff v (some q) rs cs ps hp hrs hcs hps hcp]
      cases hl : (v.rolePricing.getD []).lookup "OTHERS" with
      | none => exact ⟨q, by simp [hl], hq⟩
      | some pp =>
        cases pp with
        | none => exact ⟨q, by simp [hl], hq⟩
        | some pv => exact ⟨pv, by simp [hl], entry_nonneg "OTHERS" pv hl⟩
  · have hfalse : strTruthy r = false ∨ strTruthy c = false ∨ strTruthy pc = false := by
      rcases Bool.eq_false_or_eq_true (strTruthy r) with h | h
      · rcases Bool.eq_false_or_eq_true (strTruthy c) with h2 | h2
        · rcases Bool.eq_false_or_eq_true (strTruthy pc) with h3 | h3
          · exact absurd ⟨h, h2, h3⟩ hctx
          · exact Or.inr (Or.inr h3)
        · exact Or.inr (Or.inl h2)
      · exact Or.inl h
    rw [useRolePricing_no_ctx v (some q) r c pc hp hfalse]
    exact ⟨q, rfl, hq⟩

/-- Witness for the amended C4: base 500, overrides 400/450, role STUDENT,
same college. -/
theorem c4_nonneg_amended_witness :
    ∃ u : ℚ,
      (useRolePricing
        (some ⟨some (some 500), some [("STUDENT", some 400), ("OTHERS", some 450)]⟩)
        (some "STUDENT") (some "ENG") (some "ENG")).price = some u ∧ 0 ≤ u :=
  c4_nonneg_amended
    ⟨some (some 500), some [("STUDENT", some 400), ("OTHERS", some 450)]⟩
    500 (some "STUDENT") (some "ENG") (some "ENG") rfl (by decide) (by decide)

/-- Counterexample to claim C5 — on the early-return branch for an absent
buyer context the unit price equals the base price, yet `originalPrice` is
still produced rather than omitted. -/
theorem c5_counterexample :
    (useRolePricing (some ⟨some (some 5), some []⟩) none none none).price = some 5 ∧
    (useRolePricing (some ⟨some (some 5), some []⟩) none none none).originalPrice ≠
      none := by
  decide

/-- Claim C5 as amended — on the main path (base price present, role and
both colleges present and non-empty), `originalPrice` is omitted exactly
when the unit price equals the valid base price; the early-return branches
always include `originalPrice` (`"₱0.00"` when the price is absent, the
formatted base price when the buyer context is missing) even though the
unit price equals the base there. -/
theorem c5_amended :
    (∀ (v : Variant) (q : ℚ) (r c pc : String), v.price = some (some q) →
      r ≠ "" → c ≠ "" → pc ≠ "" →
      ((useRolePricing (some v) (some r) (some c) (some pc)).originalPrice = none ↔
       (useRolePricing (some v) (some r) (some c) (some pc)).price = some q)) ∧
    (∀ (v : Variant) (bp : JsNum) (r c pc : Option String), v.price = some bp →
      strTruthy r = false ∨ strTruthy c = false ∨ strTruthy pc = false →
      (useRolePricing (some v) r c pc).originalPrice =
        some ("₱" ++ toFixed2 (bp.getD 0)) ∧
      (useRolePricing (some v) r c pc).price = some (bp.getD 0)) ∧
    (∀ (v : Variant) (r c pc : Option String), v.price = none →
      (useRolePricing (some v) r c pc).originalPrice = some "₱0.00" ∧
      (useRolePricing (some v) r c pc).price = some 0) := by
  refine ⟨?_, ?_, ?_⟩
  · intro v q r c pc hp hr hc hpc
    by_cases hcp : c = pc
    · subst hcp
      cases hl : (v.rolePricing.getD []).lookup r with
      | none =>
        rw [useRolePricing_same_miss v (some q) r c hp hr hc hl]
        simp
      | some pp =>
        rw [useRolePricing_same_hit v (some q) pp r c hp hr hc hl]
        by_cases hne : pp.getD ((some q).getD 0) ≠ (some q).getD 0
        · simp only [if_pos hne]
          simp only [Option.getD_some] at hne
          simp [hne]
        · simp only [if_neg hne]
          simp only [ne_eq, not_not, Option.getD_some] at hne
          simp [hne]
    · rw [useRolePricing_diff v (some q) r c pc hp hr hc hpc hcp]
      set fp := (((v.rolePricing.getD []).lookup "OTHERS").getD
        (some ((some q).getD 0))).getD ((some q).getD 0) with hfp
      by_cases hne : fp ≠ (some q).getD 0
      · simp only [if_pos hne]
        simp only [Option.getD_some] at hne
        simp [hne]
      · simp only [if_neg hne]
        simp only [ne_eq, not_not, Option.getD_some] at hne
        simp [hne]
  · intro v bp r c pc hp h
    rw [useRolePricing_no_ctx v bp r c pc hp h]
    exact ⟨rfl, rfl⟩
  · intro v r c pc hp
    rw [useRolePricing_absent_price v r c pc hp]
    exact ⟨rfl, rfl⟩

/-- Witness for the amended C5: a STUDENT override 400 under base 500 on
the main path produces an `originalPrice`, and an absent-context call on
base 5 produces `originalPrice` `"₱5.00"` despite the unchanged price. -/
theorem c5_amended_witness :
    ((useRolePricing (some ⟨some (some 500), some [("STUDENT", some 400)]⟩)
        (some "STUDENT") (some "ENG") (some "ENG")).originalPrice = none ↔
      (useRolePricing (some ⟨some (some 500), some [("STUDENT", some 400)]⟩)
        (some "STUDENT") (some "ENG") (some "ENG")).price = some 500) ∧
    (useRolePricing (some ⟨some (some 5), some []⟩) none none none).originalPrice =
      some ("₱" ++ toFixed2 ((some (5 : ℚ)).getD 0)) :=
  ⟨c5_amended.1 ⟨some (some 500), some [("STUDENT", some 400)]⟩ 500
      "STUDENT" "ENG" "ENG" rfl (by decide) (by decide) (by decide),
   (c5_amended.2.1 ⟨some (some 5), some []⟩ (some 5) none none none rfl
      (Or.inl rfl)).1⟩

/-! ### Claims C6 and C7: the variant aggregator -/

/-- The rational value of the (always finite) price the resolver returns
for an aggregator variant. -/
def resolvedPrice (r c pc : Option String) (x : AggVariant) : ℚ :=
  ((useRolePricing (some (toVariant x)) r c pc).price).getD 0

/-- The resolver's price for an aggregator variant, as a finite number. -/
lemma resolvedPrice_some (x : AggVariant) (r c pc : Option String) :
    (useRolePricing (some (toVariant x)) r c pc).price =
      some (resolvedPrice r c pc x) := by
  obtain ⟨q, hq⟩ := useRolePricing_price_isSome (some (toVariant x)) r c pc
  rw [resolvedPrice, hq]
  rfl

/-- `Math.min` folded over finite JS numbers is the rational minimum fold. -/
lemma foldl_jsMin2_map_some (l : List ℚ) (a : ℚ) :
    (l.map some).foldl jsMin2 (some a) = some (l.foldl min a) := by
  induction l generalizing a with
  | nil => rfl
  | cons x xs ih =>
    simp only [List.map_cons, List.foldl_cons, jsMin2]
    exact ih (min a x)

/-- `Math.max` folded over finite JS numbers is the rational maximum fold. -/
lemma foldl_jsMax2_map_some (l : List ℚ) (a : ℚ) :
    (l.map some).foldl jsMax2 (some a) = some (l.foldl max a) := by
  induction l generalizing a with
  | nil => rfl
  | cons x xs ih =>
    simp only [List.map_cons, List.foldl_cons, jsMax2]
    exact ih (max a x)

/-- The per-variant resolved prices are the `some`-image of the rational
resolved prices. -/
lemma prices_map_eq (vs : List AggVariant) (r c pc : Option String) :
    (vs.map fun x => useRolePricing (some (toVariant x)) r c pc).map
        RolePricingResult.price =
      (vs.map (resolvedPrice r c pc)).map some := by
  induction vs with
  | nil => rfl
  | cons x xs ih =>
    simp only [List.map_cons, ih, List.cons.injEq]
    exact ⟨resolvedPrice_some x r c pc, trivial⟩

/-- The minimum of the per-variant resolved unit prices of a non-empty
variant list. -/
def aggLow (v : AggVariant) (vs : List AggVariant) (r c pc : Option String) : ℚ :=
  (vs.map (resolvedPrice r c pc)).foldl min (resolvedPrice r c pc v)

/-- The maximum of the per-variant resolved unit prices of a non-empty
variant list. -/
def aggHigh (v : AggVariant) (vs : List AggVariant) (r c pc : Option String) : ℚ :=
  (vs.map (resolvedPrice r c pc)).foldl max (resolvedPrice r c pc v)

/-- The aggregator's `Math.min(...prices)` computes `aggLow`. -/
lemma getPricing_low (v : AggVariant) (vs : List AggVariant) (r c pc : Option String) :
    ((vs.map fun x => useRolePricing (some (toVariant x)) r c pc).map
        RolePricingResult.price).foldl jsMin2
        (useRolePricing (some (toVariant v)) r c pc).price =
      some (aggLow v vs r c pc) := by
  rw [prices_map_eq, resolvedPrice_some, foldl_jsMin2_map_some]
  rfl

/-- The aggregator's `Math.max(...prices)` computes `aggHigh`. -/
lemma getPricing_high (v : AggVariant) (vs : List AggVariant) (r c pc : Option String) :
    ((vs.map fun x => useRolePricing (some (toVariant x)) r c pc).map
        RolePricingResult.price).foldl jsMax2
        (useRolePricing (some (toVariant v)) r c pc).price =
      some (aggHigh v vs r c pc) := by
  rw [prices_map_eq, resolvedPrice_some, foldl_jsMax2_map_some]
  rfl

/-- Claim C6 — over a non-empty variant list the aggregate result has the
range flag exactly when the minimum and maximum resolved prices differ;
equal bounds give a single formatted price with no range flag, and distinct
bounds give the two bounds joined by `" - "` with no `originalPrice`. -/
theorem c6_aggregate_range (v : AggVariant) (vs : List AggVariant)
    (r c pc : Option String) :
    ((getPricing v vs r c pc).isRange = some true ↔
      aggLow v vs r c pc ≠ aggHigh v vs r c pc) ∧
    (aggLow v vs r c pc = aggHigh v vs r c pc →
      (getPricing v vs r c pc).price = some (aggLow v vs r c pc) ∧
      (getPricing v vs r c pc).formattedPrice =
        "₱" ++ toFixed2 (aggLow v vs r c pc) ∧
      (getPricing v vs r c pc).isRange = none ∧
      (getPricing v vs r c pc).originalPrice = none) ∧
    (aggLow v vs r c pc ≠ aggHigh v vs r c pc →
      (getPricing v vs r c pc).price = some (aggLow v vs r c pc) ∧
      (getPricing v vs r c pc).formattedPrice =
        "₱" ++ toFixed2 (aggLow v vs r c pc) ++ " - " ++
          ("₱" ++ toFixed2 (aggHigh v vs r c pc)) ∧
      (getPricing v vs r c pc).isRange = some true ∧
      (getPricing v vs r c pc).originalPrice = none) := by
  have hlo := getPricing_low v vs r c pc
  have hhi := getPricing_high v vs r c pc
  simp only [getPricing, hlo, hhi, jsEq]
  by_cases h : aggLow v vs r c pc = aggHigh v vs r c pc
  · simp [h, pesoFmt]
  · simp [h, pesoFmt]

/-- Witness for C6: two variants resolving to 400 and 600 produce a range. -/
theorem c6_aggregate_range_witness :
    (getPricing ⟨some 400, []⟩ [⟨some 600, []⟩] none none none).isRange =
      some true :=
  (c6_aggregate_range ⟨some 400, []⟩ [⟨some 600, []⟩] none none none).1.mpr
    (by decide)

/-- Counterexample to claim C7 — on a single-variant product with an
applied override the aggregator does not equal the direct resolver call:
the aggregator drops `originalPrice` and formats through the grouping
currency formatter. -/
theorem c7_counterexample :
    getPricingHome ⟨some 1500, [("STUDENT", some 1400)]⟩ []
        (some "STUDENT") (some "ENG") (some "ENG") ≠
      useRolePricing (some (toVariant ⟨some 1500, [("STUDENT", some 1400)]⟩))
        (some "STUDENT") (some "ENG") (some "ENG") := by
  decide

/-- Claim C7 as amended — for a single-variant product the aggregator
agrees with the direct resolver call on the unit price, the applied role
and the range flag, but it always omits `originalPrice` (even when the
direct call reports one) and renders the price through its own currency
formatter instead of copying the resolver's formatted string. -/
theorem c7_single_variant (x : AggVariant) (r c pc : Option String) :
    (getPricingHome x [] r c pc).price =
      (useRolePricing (some (toVariant x)) r c pc).price ∧
    (getPricingHome x [] r c pc).appliedRole =
      (useRolePricing (some (toVariant x)) r c pc).appliedRole ∧
    (getPricingHome x [] r c pc).isRange =
      (useRolePricing (some (toVariant x)) r c pc).isRange ∧
    (getPricingHome x [] r c pc).originalPrice = none ∧
    (getPricingHome x [] r c pc).formattedPrice =
      formatCurrency ((useRolePricing (some (toVariant x)) r c pc).price) := by
  have hq := resolvedPrice_some x r c pc
  have hrange := useRolePricing_isRange_none (some (toVariant x)) r c pc
  simp only [getPricingHome, List.map_nil, List.foldl_nil, List.all_nil,
    if_true, hq, jsEq, beq_self_eq_true, hrange]
  refine ⟨?_, ?_, ?_, ?_, ?_⟩ <;> first | rfl | trivial

/-! ### Claim C8: the order lifecycle state machine -/

/-- A terminal order never moves under a single request. -/
lemma applyRequest_terminal (o : OrderRec)
    (h : o.status = OrderStatus.DELIVERED ∨ o.status = OrderStatus.CANCELLED)
    (req : OrderStatus × Option CancellationReason) :
    applyRequest o req = o := by
  have hall : allowedTransition o.status req.1 = false := by
    rcases h with h | h <;> rw [h] <;> cases req.1 <;> rfl
  simp [applyRequest, requestTransition, hall]

/-- Claim C8 — a transition request succeeds only when the target appears
in the adjacency table PENDING→PROCESSING→READY→DELIVERED plus
PENDING/PROCESSING/READY→CANCELLED; DELIVERED and CANCELLED have no
outgoing edges, and once an order is in a terminal status no sequence of
requests moves it. -/
theorem c8_lifecycle_adjacency :
    (∀ s t : OrderStatus, allowedTransition s t = true ↔
      (s, t) ∈ [(OrderStatus.PENDING, OrderStatus.PROCESSING),
                (OrderStatus.PROCESSING, OrderStatus.READY),
                (OrderStatus.READY, OrderStatus.DELIVERED),
                (OrderStatus.PENDING, OrderStatus.CANCELLED),
                (OrderStatus.PROCESSING, OrderStatus.CANCELLED),
                (OrderStatus.READY, OrderStatus.CANCELLED)]) ∧
    (∀ (o : OrderRec) (t : OrderStatus) (reason : Option CancellationReason)
        (o2 : OrderRec), requestTransition o t reason = .ok o2 →
      allowedTransition o.status t = true ∧ o2.status = t) ∧
    (∀ t : OrderStatus, allowedTransition OrderStatus.DELIVERED t = false) ∧
    (∀ t : OrderStatus, allowedTransition OrderStatus.CANCELLED t = false) ∧
    (∀ (o : OrderRec) (reqs : List (OrderStatus × Option CancellationReason)),
      o.status = OrderStatus.DELIVERED ∨ o.status = OrderStatus.CANCELLED →
      (runRequests o reqs).status = o.status) := by
  refine ⟨by decide, ?_, by decide, by decide, ?_⟩
  · intro o t reason o2 h
    unfold requestTransition at h
    by_cases h1 : allowedTransition o.status t = false
    · rw [if_pos h1] at h
      exact absurd h (by simp)
    · rw [if_neg h1] at h
      refine ⟨by simpa using h1, ?_⟩
      by_cases h2 : t = OrderStatus.DELIVERED ∧ o.paymentStatus ≠ OrderPaymentStatus.PAID
      · rw [if_pos h2] at h
        exact absurd h (by simp)
      · rw [if_neg h2] at h
        by_cases h3 : t = OrderStatus.CANCELLED ∧ reason = none
        · rw [if_pos h3] at h
          exact absurd h (by simp)
        · rw [if_neg h3] at h
          obtain rfl : _ = o2 := by injection h
          rfl
  · intro o reqs h
    induction reqs generalizing o with
    | nil => rfl
    | cons req rest ih =>
      show (runRequests (applyRequest o req) rest).status = o.status
      rw [applyRequest_terminal o h req]
      exact ih o h

/-- Witness for C8: a DELIVERED order survives an adversarial request
sequence unchanged. -/
theorem c8_lifecycle_adjacency_witness :
    (runRequests
      { status := OrderStatus.DELIVERED,
        paymentStatus := OrderPaymentStatus.PAID, cancellationReason := none }
      [(OrderStatus.CANCELLED, some CancellationReason.OTHERS),
       (OrderStatus.PENDING, none)]).status = OrderStatus.DELIVERED :=
  c8_lifecycle_adjacency.2.2.2.2
    { status := OrderStatus.DELIVERED,
      paymentStatus := OrderPaymentStatus.PAID, cancellationReason := none }
    [(OrderStatus.CANCELLED, some CancellationReason.OTHERS),
     (OrderStatus.PENDING, none)]
    (Or.inl rfl)

/-! ### Claim C9: the order total invariant -/

/-- Claim C9 — a persisted order's header total is the line-item sum minus
the discount, clamped to at least 0; recomputing the total from the stored
line items reproduces the header value; the line-item sum over a cart
snapshot agrees with the cart store's `getTotalPrice`. -/
theorem c9_total_invariant :
    (∀ (items : List OrderItemRec) (d : ℚ),
      (mkOrder items d).totalAmount =
        max 0 (lineItemsTotal (mkOrder items d).orderItems -
          (mkOrder items d).discountAmount) ∧
      computeTotalAmount (mkOrder items d).orderItems
          (mkOrder items d).discountAmount = (mkOrder items d).totalAmount ∧
      0 ≤ (mkOrder items d).totalAmount) ∧
    (∀ cart : List CartItem,
      lineItemsTotal (cart.map snapshot) = getTotalPrice cart) := by
  constructor
  · intro items d
    exact ⟨rfl, rfl, le_max_left 0 _⟩
  · intro cart
    rw [lineItemsTotal, getTotalPrice, List.foldl_map]
    rfl

/-! ### Claim C10: the cart key invariant -/

/-- No two cart lines share a `(productId, variantId)` pair. -/
def cartKeysDistinct (items : List CartItem) : Prop :=
  (items.map itemKey).Nodup

/-- A successful quantity bump keeps the key sequence of the cart. -/
lemma bumpFirst_map_key (p : CartItem → Bool) (q : ℚ) :
    ∀ l l2 : List CartItem, bumpFirst p q l = some l2 →
      l2.map itemKey = l.map itemKey := by
  intro l
  induction l with
  | nil => intro l2 h; simp [bumpFirst] at h
  | cons it rest ih =>
    intro l2 h
    rw [bumpFirst] at h
    by_cases hit : p it = true
    · rw [if_pos hit] at h
      obtain rfl : _ = l2 := by injection h
      rfl
    · rw [if_neg hit] at h
      cases hrec : bumpFirst p q rest with
      | none => rw [hrec] at h; simp at h
      | some rest2 =>
        rw [hrec] at h
        obtain rfl : it :: rest2 = l2 := by injection h
        simp only [List.map_cons, ih rest2 hrec]

/-- `bumpFirst` fails exactly when no line matches. -/
lemma bumpFirst_eq_none (p : CartItem → Bool) (q : ℚ) :
    ∀ l : List CartItem, bumpFirst p q l = none ↔ ∀ it ∈ l, p it = false := by
  intro l
  induction l with
  | nil => simp [bumpFirst]
  | cons it rest ih =>
    rw [bumpFirst]
    by_cases hit : p it = true
    · simp [hit]
    · rw [if_neg hit]
      constructor
      · intro hmap x hx
        have hnone : bumpFirst p q rest = none := by
          cases hrec : bumpFirst p q rest with
          | none => rfl
          | some l2 => rw [hrec] at hmap; simp at hmap
        rcases List.mem_cons.mp hx with rfl | hx2
        · simpa using hit
        · exact (ih.mp hnone) x hx2
      · intro hall
        have hnone : bumpFirst p q rest = none :=
          ih.mpr (fun x hx => hall x (List.mem_cons_of_mem _ hx))
        rw [hnone]
        rfl

/-- When some line matches, `bumpFirst` updates the first matching line in
place. -/
lemma bumpFirst_spec (p : CartItem → Bool) (q : ℚ) :
    ∀ l : List CartItem, (∃ it ∈ l, p it = true) →
      ∃ pre it suf, l = pre ++ it :: suf ∧ p it = true ∧
        (∀ x ∈ pre, p x = false) ∧
        bumpFirst p q l =
          some (pre ++ { it with quantity := it.quantity + q } :: suf) := by
  intro l
  induction l with
  | nil => rintro ⟨it, hmem, _⟩; simp at hmem
  | cons hd rest ih =>
    intro hex
    by_cases hit : p hd = true
    · refine ⟨[], hd, rest, rfl, hit, by simp, ?_⟩
      rw [bumpFirst, if_pos hit, List.nil_append]
    · have hex2 : ∃ it ∈ rest, p it = true := by
        obtain ⟨it, hmem, hp⟩ := hex
        rcases List.mem_cons.mp hmem with rfl | hmem2
        · exact absurd hp hit
        · exact ⟨it, hmem2, hp⟩
      obtain ⟨pre, it, suf, rfl, hp, hpre, hbump⟩ := ih hex2
      refine ⟨hd :: pre, it, suf, rfl, hp, ?_, ?_⟩
      · intro x hx
        rcases List.mem_cons.mp hx with rfl | hx2
        · simpa using hit
        · exact hpre x hx2
      · rw [bumpFirst, if_neg hit, hbump]
        rfl

/-- Each cart operation preserves key distinctness. -/
lemma applyOp_preserves_distinct (items : List CartItem) (op : CartOp)
    (h : cartKeysDistinct items) : cartKeysDistinct (applyOp items op) := by
  cases op with
  | add n now =>
    show cartKeysDistinct (addItem items n now)
    rw [addItem]
    cases hb : bumpFirst (keyMatch n) n.quantity items with
    | some updated =>
      unfold cartKeysDistinct
      rw [bumpFirst_map_key (keyMatch n) n.quantity items updated hb]
      exact h
    | none =>
      unfold cartKeysDistinct
      have hnomatch := (bumpFirst_eq_none (keyMatch n) n.quantity items).mp hb
      rw [List.map_append]
      rw [List.nodup_append]
      refine ⟨h, List.nodup_singleton _, ?_⟩
      intro k hk hk2
      simp only [List.map_cons, List.map_nil, List.mem_singleton] at hk2
      obtain ⟨it, hmem, hkey⟩ := List.mem_map.mp hk
      have hfalse := hnomatch it hmem
      rw [keyMatch] at hfalse
      simp only [Bool.and_eq_false_iff, beq_eq_false_iff_ne, ne_eq] at hfalse
      have : itemKey it = (n.productId, n.variantId) := by
        rw [hkey, hk2]
        rfl
      rw [itemKey] at this
      obtain ⟨h1, h2⟩ := Prod.mk.injEq .. ▸ this
      rcases hfalse with hf | hf
      · exact absurd h1 (by simpa using hf)
      · exact absurd h2 (by simpa using hf)
  | remove id =>
    unfold cartKeysDistinct
    exact h.sublist ((List.filter_sublist _).map itemKey)
  | setQuantity id q =>
    show ((updateQuantity items id q).map itemKey).Nodup
    have : (updateQuantity items id q).map itemKey = items.map itemKey := by
      rw [updateQuantity, List.map_map]
      apply List.map_congr_left
      intro it _
      show itemKey (if it.id == id then _ else it) = itemKey it
      split <;> rfl
    rw [this]
    exact h
  | setNotes id notes =>
    show ((updateNotes items id notes).map itemKey).Nodup
    have : (updateNotes items id notes).map itemKey = items.map itemKey := by
      rw [updateNotes, List.map_map]
      apply List.map_congr_left
      intro it _
      show itemKey (if it.id == id then _ else it) = itemKey it
      split <;> rfl
    rw [this]
    exact h
  | clear =>
    exact List.nodup_nil

/-- Claim C10 — from the empty cart every operation sequence keeps the
`(productId, variantId)` pairs of the lines pairwise distinct, and
`addItem` on a pair already present bumps that line's quantity in place,
leaving the number of lines unchanged. -/
theorem c10_cart_unique_lines :
    (∀ ops : List CartOp, cartKeysDistinct (runOps ops)) ∧
    (∀ (items : List CartItem) (n : NewCartItem) (now : String),
      (∃ it ∈ items, keyMatch n it = true) →
      ∃ pre it suf, items = pre ++ it :: suf ∧ keyMatch n it = true ∧
        addItem items n now =
          pre ++ { it with quantity := it.quantity + n.quantity } :: suf ∧
        (addItem items n now).length = items.length) := by
  constructor
  · intro ops
    have hrun : ∀ (start : List CartItem), cartKeysDistinct start →
        cartKeysDistinct (ops.foldl applyOp start) := by
      induction ops with
      | nil => intro start h; exact h
      | cons op rest ih =>
        intro start h
        exact ih (applyOp start op) (applyOp_preserves_distinct start op h)
    exact hrun [] List.nodup_nil
  · intro items n now hex
    obtain ⟨pre, it, suf, rfl, hp, _, hbump⟩ :=
      bumpFirst_spec (keyMatch n) n.quantity items hex
    refine ⟨pre, it, suf, rfl, hp, ?_, ?_⟩
    · rw [addItem, hbump]
    · rw [addItem, hbump]
      simp

/-- Witness for C10: adding the same `(productId, variantId)` pair twice
keeps a single line. -/
theorem c10_cart_unique_lines_witness :
    (addItem [{ id := "p1-v1-111", productId := "p1", variantId := some "v1",
                name := "Shirt", price := 500, quantity := 2, imageUrl := none,
                notes := none, variantName := none }]
      { productId := "p1", variantId := some "v1", name := "Shirt",
        price := 500, quantity := 3, imageUrl := none, notes := none,
        variantName := none } "222").length = 1 := by
  obtain ⟨_, _, _, _, _, _, hlen⟩ :=
    c10_cart_unique_lines.2
      [{ id := "p1-v1-111", productId := "p1", variantId := some "v1",
         name := "Shirt", price := 500, quantity := 2, imageUrl := none,
         notes := none, variantName := none }]
      { productId := "p1", variantId := some "v1", name := "Shirt",
        price := 500, quantity := 3, imageUrl := none, notes := none,
        variantName := none } "222"
      ⟨{ id := "p1-v1-111", productId := "p1", variantId := some "v1",
         name := "Shirt", price := 500, quantity := 2, imageUrl := none,
         notes := none, variantName := none }, by simp, by decide⟩
  simpa using hlen

end MerchTrack
